import Mathlib

/-!
Shallow embedding of the PS/2 host gateware
(`software/glasgow/applet/interface/ps2_host/__init__.py`).

The Migen design is a fully synchronous single-clock-domain circuit.  We embed
it as a step function on an explicit state record: every registered signal
(`sync` assignments and every `NextValue`/`NextState` of the two FSMs) becomes
a field of `State`, updated once per call of `step`; every combinational
output read by the environment (`in_fifo.we`, `in_fifo.din`, `out_fifo.re`,
the pad drivers) becomes a function of the current state and inputs.

Per-cycle inputs are the synchronized line levels `clock_i`/`data_i`
(the outputs of the two `MultiReg` synchronizers, which only delay the raw
pads) and the FIFO status/data signals `in_fifo.writable`, `out_fifo.readable`
and `out_fifo.dout`.

Multi-bit signals are modelled as `Nat` with explicit truncation where the
hardware truncates:
* the 11-bit frame `Record` (`start` = bit 0, `data` = bits 1..8,
  `parity` = bit 9, `stop` = bit 10) is the `Nat` value of `raw_bits()`;
* `rx_bitno`/`tx_bitno` are `Signal(max=11)` (4 bits wide), so increments
  are taken modulo 16;
* `tx_timer` is decremented with truncated subtraction: the hardware's
  modular wrap at `tx_timer = 0` happens on the very edge that leaves the
  `REQUEST` state, and the register is reloaded in `IDLE` before `REQUEST`
  reads it again, so the wrapped value is never observed.
-/

namespace PS2Host

/-- States of the receive FSM (`rx_fsm`, reset state `IDLE`). -/
inductive RxState
  | IDLE
  | BIT
  | FRAME
  | IDLE_WAIT
  deriving DecidableEq, Repr

/-- States of the transmit FSM (`tx_fsm`, reset state `IDLE`). -/
inductive TxState
  | IDLE
  | REQUEST
  | BIT
  | ACK
  | IDLE_WAIT
  deriving DecidableEq, Repr

/-- All registered signals of `PS2Bus` and `PS2HostSubtarget`. -/
structure State where
  /-- `clock_s` : first registered copy of the synchronized clock (reset 1). -/
  clock_s  : Bool
  /-- `clock_r` : second registered copy (reset 1). -/
  clock_r  : Bool
  /-- `sample` : falling-edge pulse register. -/
  sample   : Bool
  /-- `setup` : rising-edge pulse register. -/
  setup    : Bool
  /-- `clock_o` : clock line drive register (1 = released, reset 1). -/
  clock_o  : Bool
  /-- `data_o` : data line drive register (1 = released, reset 1). -/
  data_o   : Bool
  /-- current state of `rx_fsm`. -/
  rx       : RxState
  /-- `rx_frame.raw_bits()`, an 11-bit value. -/
  rx_frame : Nat
  /-- `rx_bitno`, `Signal(max=11)`. -/
  rx_bitno : Nat
  /-- current state of `tx_fsm`. -/
  tx       : TxState
  /-- `tx_frame.raw_bits()`, an 11-bit value. -/
  tx_frame : Nat
  /-- `tx_bitno`, `Signal(max=11)`. -/
  tx_bitno : Nat
  /-- `tx_timer`, `Signal(max=request_cyc)`. -/
  tx_timer : Nat
  deriving DecidableEq, Repr

/-- Combinational inputs read by the core during one cycle. -/
structure Input where
  /-- `bus.clock_i` : synchronized clock level. -/
  clock_i     : Bool
  /-- `bus.data_i` : synchronized data level. -/
  data_i      : Bool
  /-- `in_fifo.writable`. -/
  inWritable  : Bool
  /-- `out_fifo.readable`. -/
  outReadable : Bool
  /-- `out_fifo.dout` (8 bits). -/
  outDout     : Nat
  deriving DecidableEq, Repr

/-- The reset state: all registers take their Migen reset values. -/
def resetState : State where
  clock_s  := true
  clock_r  := true
  sample   := false
  setup    := false
  clock_o  := true
  data_o   := true
  rx       := RxState.IDLE
  rx_frame := 0
  rx_bitno := 0
  tx       := TxState.IDLE
  tx_frame := 0
  tx_bitno := 0
  tx_timer := 0

/-- XOR-reduction of the 8 low bits of `d`: `reduce(operator.xor, frame.data)`
(iterating a Migen 8-bit signal yields its bits, LSB first, and `reduce`
folds from the left). -/
def xorBits8 (d : Nat) : Bool :=
  (((((((d.testBit 0).xor (d.testBit 1)).xor (d.testBit 2)).xor
      (d.testBit 3)).xor (d.testBit 4)).xor (d.testBit 5)).xor
      (d.testBit 6)).xor (d.testBit 7)

/-- `frame.start` : bit 0 of the raw frame. -/
def frameStart (f : Nat) : Nat := f % 2

/-- `frame.data` : bits 1..8 of the raw frame. -/
def frameData (f : Nat) : Nat := f / 2 % 256

/-- `frame.parity` : bit 9 of the raw frame. -/
def frameParity (f : Nat) : Nat := f / 512 % 2

/-- `frame.stop` : bit 10 of the raw frame. -/
def frameStop (f : Nat) : Nat := f / 1024 % 2

/-- `check_frame(frame)` : `(frame.start == 0) & (frame.parity ==
~reduce(operator.xor, frame.data)) & (frame.stop == 1)`. -/
def check_frame (f : Nat) : Bool :=
  (frameStart f == 0) &&
  (frameParity f == (if xorBits8 (frameData f) then 0 else 1)) &&
  (frameStop f == 1)

/-- `prepare_frame(frame, data)` : the raw value the four `NextValue`s load,
`start = 0`, `data = data`, `parity = ~reduce(operator.xor, data)`,
`stop = 1`; `data` is the 8-bit `out_fifo.dout`. -/
def prepare_frame (d : Nat) : Nat :=
  2 * (d % 256) + 512 * (if xorBits8 (d % 256) then 0 else 1) + 1024

/-- Receive shift `Cat(rx_frame.raw_bits()[1:], bus.data_i)` : drop bit 0
(keeping bits 1..10) and insert the sampled data bit at position 10. -/
def rxShiftIn (f : Nat) (b : Bool) : Nat :=
  f / 2 % 1024 + (if b then 1024 else 0)

/-- Transmit shift `tx_frame.raw_bits().eq(tx_frame.raw_bits()[1:])` : the
10-bit slice is zero-extended into the 11-bit record. -/
def txShift (f : Nat) : Nat :=
  f / 2 % 1024

/-- Next state of `rx_fsm`.  `IDLE` arms on `tx_fsm.ongoing("IDLE") &
~bus.clock_i`; `BIT` shifts on `sample` and leaves after the 11th bit;
`FRAME` leaves for `IDLE-WAIT` when the frame checks and the FIFO is
writable, or immediately when the frame fails the check (a checking frame
with a full FIFO keeps the FSM in `FRAME`); `IDLE-WAIT` waits for the
clock line to be released. -/
def rxNext (s : State) (i : Input) : RxState :=
  match s.rx with
  | RxState.IDLE =>
      if s.tx = TxState.IDLE ∧ i.clock_i = false then RxState.BIT
      else RxState.IDLE
  | RxState.BIT =>
      if s.sample = true ∧ s.rx_bitno = 10 then RxState.FRAME
      else RxState.BIT
  | RxState.FRAME =>
      if check_frame s.rx_frame then
        if i.inWritable then RxState.IDLE_WAIT else RxState.FRAME
      else RxState.IDLE_WAIT
  | RxState.IDLE_WAIT =>
      if i.clock_i then RxState.IDLE else RxState.IDLE_WAIT

/-- Next value of `rx_frame.raw_bits()` : shifted only in `BIT` on a
`sample` pulse. -/
def rxFrameNext (s : State) (i : Input) : Nat :=
  match s.rx with
  | RxState.BIT =>
      if s.sample then rxShiftIn s.rx_frame i.data_i else s.rx_frame
  | _ => s.rx_frame

/-- Next value of `rx_bitno` : incremented (modulo its 4-bit width) in
`BIT` on a `sample` pulse, the increment overridden by the reset to 0
when the counter reads 10. -/
def rxBitnoNext (s : State) : Nat :=
  match s.rx with
  | RxState.BIT =>
      if s.sample = true ∧ s.rx_bitno = 10 then 0
      else if s.sample then (s.rx_bitno + 1) % 16
      else s.rx_bitno
  | _ => s.rx_bitno

/-- Next state of `tx_fsm`.  `IDLE` arms on `rx_fsm.ongoing("IDLE") &
bus.clock_i & out_fifo.readable`; `REQUEST` counts the hold timer down;
`BIT` shifts out on `setup` pulses; `ACK` waits for one `sample`;
`IDLE-WAIT` waits for the clock line to be released. -/
def txNext (s : State) (i : Input) : TxState :=
  match s.tx with
  | TxState.IDLE =>
      if s.rx = RxState.IDLE ∧ i.clock_i = true ∧ i.outReadable = true then
        TxState.REQUEST
      else TxState.IDLE
  | TxState.REQUEST =>
      if s.tx_timer = 0 then TxState.BIT else TxState.REQUEST
  | TxState.BIT =>
      if s.setup = true ∧ s.tx_bitno = 10 then TxState.ACK
      else TxState.BIT
  | TxState.ACK =>
      if s.sample then TxState.IDLE_WAIT else TxState.ACK
  | TxState.IDLE_WAIT =>
      if i.clock_i then TxState.IDLE else TxState.IDLE_WAIT

/-- Next value of `tx_frame.raw_bits()` : loaded by `prepare_frame` when
`REQUEST` expires, shifted right in `BIT` on `setup` pulses. -/
def txFrameNext (s : State) (i : Input) : Nat :=
  match s.tx with
  | TxState.REQUEST =>
      if s.tx_timer = 0 then prepare_frame i.outDout else s.tx_frame
  | TxState.BIT =>
      if s.setup then txShift s.tx_frame else s.tx_frame
  | _ => s.tx_frame

/-- Next value of `tx_bitno`. -/
def txBitnoNext (s : State) : Nat :=
  match s.tx with
  | TxState.BIT =>
      if s.setup = true ∧ s.tx_bitno = 10 then 0
      else if s.setup then (s.tx_bitno + 1) % 16
      else s.tx_bitno
  | _ => s.tx_bitno

/-- Next value of `tx_timer` : loaded with `request_cyc - 1` when `IDLE`
arms, decremented every `REQUEST` cycle (truncated subtraction stands in
for the modular wrap on the edge that leaves `REQUEST`; see the header
comment). -/
def txTimerNext (requestCyc : Nat) (s : State) (i : Input) : Nat :=
  match s.tx with
  | TxState.IDLE =>
      if s.rx = RxState.IDLE ∧ i.clock_i = true ∧ i.outReadable = true then
        requestCyc - 1
      else s.tx_timer
  | TxState.REQUEST => s.tx_timer - 1
  | _ => s.tx_timer

/-- Next value of `bus.clock_o` : pulled low when `IDLE` arms a request,
released when the `REQUEST` timer expires. -/
def clockONext (s : State) (i : Input) : Bool :=
  match s.tx with
  | TxState.IDLE =>
      if s.rx = RxState.IDLE ∧ i.clock_i = true ∧ i.outReadable = true then
        false
      else s.clock_o
  | TxState.REQUEST =>
      if s.tx_timer = 0 then true else s.clock_o
  | _ => s.clock_o

/-- Next value of `bus.data_o` : pulled low when the `REQUEST` timer
expires (request-to-send), then driven with successive frame bits in
`BIT` on `setup` pulses. -/
def dataONext (s : State) : Bool :=
  match s.tx with
  | TxState.REQUEST =>
      if s.tx_timer = 0 then false else s.data_o
  | TxState.BIT =>
      if s.setup then s.tx_frame % 2 == 1 else s.data_o
  | _ => s.data_o

/-- One synchronous step of the whole design (`request_cyc` is the
construction parameter).  Every register takes its next value computed
from the pre-edge state; the two FSMs read each other's pre-edge state
through their guards. -/
def step (requestCyc : Nat) (s : State) (i : Input) : State where
  clock_s  := i.clock_i
  clock_r  := s.clock_s
  sample   := s.clock_r && !s.clock_s
  setup    := !s.clock_r && s.clock_s
  clock_o  := clockONext s i
  data_o   := dataONext s
  rx       := rxNext s i
  rx_frame := rxFrameNext s i
  rx_bitno := rxBitnoNext s
  tx       := txNext s i
  tx_frame := txFrameNext s i
  tx_bitno := txBitnoNext s
  tx_timer := txTimerNext requestCyc s i

/-- Combinational output `in_fifo.we` : asserted only in `FRAME` when the
frame checks and the FIFO is writable. -/
def in_we (s : State) (i : Input) : Bool :=
  s.rx == RxState.FRAME && check_frame s.rx_frame && i.inWritable

/-- Combinational output `in_fifo.din` : driven with `rx_frame.data` under
the same condition as `in_we`, otherwise the default 0. -/
def in_din (s : State) (i : Input) : Nat :=
  if s.rx == RxState.FRAME && check_frame s.rx_frame && i.inWritable then
    frameData s.rx_frame
  else 0

/-- Combinational output `out_fifo.re` : asserted only in `ACK` on a
`sample` pulse with the data line low. -/
def out_re (s : State) (i : Input) : Bool :=
  s.tx == TxState.ACK && s.sample && !i.data_i

/-- Combinational pad driver `pads.clock_t.o` : constantly 0. -/
def padsClockO (_s : State) : Bool := false

/-- Combinational pad driver `pads.clock_t.oe` : `~clock_o`. -/
def padsClockOE (s : State) : Bool := !s.clock_o

/-- Combinational pad driver `pads.data_t.o` : constantly 0. -/
def padsDataO (_s : State) : Bool := false

/-- Combinational pad driver `pads.data_t.oe` : `~data_o`. -/
def padsDataOE (s : State) : Bool := !s.data_o

/-- States reachable from reset under some input sequence. -/
inductive Reachable (requestCyc : Nat) : State → Prop
  | init : Reachable requestCyc resetState
  | step (s : State) (i : Input) :
      Reachable requestCyc s → Reachable requestCyc (step requestCyc s i)

/-- Iterated stepping along an input trace `f` (cycle `n` consumes `f n`). -/
def iterStep (requestCyc : Nat) (s : State) (f : Nat → Input) : Nat → State
  | 0 => s
  | n + 1 => step requestCyc (iterStep requestCyc s f n) (f n)

/-- Number of set bits among the 8 low bits of `d` (used to state odd
parity as a popcount condition, independently of the XOR fold the source
uses). -/
def dataOnes (d : Nat) : Nat :=
  (List.range 8).countP (fun k => Nat.testBit d k)

/-- A concrete valid frame carrying data byte 0: `start = 0`, `data = 0`,
`parity = 1`, `stop = 1`. -/
def fullFrameState : State :=
  { resetState with rx := RxState.FRAME, rx_frame := 1536 }

/-- An input cycle with the inbound FIFO full (`in_fifo.writable = 0`). -/
def fullInput : Input :=
  { clock_i := true, data_i := true, inWritable := false,
    outReadable := false, outDout := 0 }

/-- A state with the transmit FSM in `ACK` during a `sample` pulse. -/
def ackState : State :=
  { resetState with tx := TxState.ACK, sample := true }

/-- An input cycle with the peripheral holding the data line low. -/
def ackInput : Input :=
  { clock_i := false, data_i := false, inWritable := true,
    outReadable := true, outDout := 0 }

/-- A state in which the controller is pulling both lines low. -/
def drivingState : State :=
  { resetState with clock_o := false, data_o := false }

/-- An input trace holding the clock line low (a peripheral starting a
transmission). -/
def rxStartInput : Input :=
  { clock_i := false, data_i := true, inWritable := true,
    outReadable := false, outDout := 0 }

/-- Two cycles after reset with the clock held low: the receive FSM has
armed into `BIT` and a `sample` pulse fires. -/
def rxBitState : State :=
  step 3 (step 3 resetState rxStartInput) rxStartInput

/-- An idle-bus input trace with a byte pending in the outbound FIFO. -/
def txStartInput : Nat → Input := fun _ =>
  { clock_i := true, data_i := true, inWritable := true,
    outReadable := true, outDout := 0x55 }

/- ------------------------------------------------------------------ -/
/- Theorems                                                            -/
/- ------------------------------------------------------------------ -/

set_option maxRecDepth 10000 in
/-- **C4.** For every 11-bit frame, decomposed into its fields as
`start + 2*data + 512*parity + 1024*stop`, `check_frame` returns `true`
(rather than raising) iff the start bit is 0, the stop bit is 1, and the
data-plus-parity bits have odd popcount — i.e. the parity bit is the
complement of the XOR-reduction of the 8 data bits (odd parity). -/
theorem ps2_check_frame_spec :
    ∀ st pa sp : Fin 2, ∀ d : Fin 256,
      check_frame (st.val + 2 * d.val + 512 * pa.val + 1024 * sp.val) = true ↔
      (st.val = 0 ∧ sp.val = 1 ∧ (dataOnes d.val + pa.val) % 2 = 1) := by
  decide

set_option maxRecDepth 10000 in
/-- **C9.** Round trip of the frame codec: for every byte `b`, the frame
built by `prepare_frame` passes `check_frame`. -/
theorem ps2_prepare_check_roundtrip :
    ∀ b : Fin 256, check_frame (prepare_frame b.val) = true := by
  decide

/-- **C7.** Open-drain discipline: in every state, whenever an output
driver is enabled the driven value is 0 — the controller pulls lines low
or releases them, never drives one high. -/
theorem ps2_open_drain (s : State) :
    (padsClockOE s = true → padsClockO s = false) ∧
    (padsDataOE s = true → padsDataO s = false) :=
  ⟨fun _ => rfl, fun _ => rfl⟩

/-- Witness for `ps2_open_drain` at a state actively pulling both lines
low. -/
theorem ps2_open_drain_witness :
    padsClockO drivingState = false ∧ padsDataO drivingState = false :=
  ⟨(ps2_open_drain drivingState).1 (by decide),
   (ps2_open_drain drivingState).2 (by decide)⟩

/-- **C8.** Edge pulses: after any step, `sample` is high iff on the
previous cycle the older clock register was high and the newer one low
(a falling edge confirmed over two consecutive cycles), `setup` is high
iff the transition was low-to-high, and neither pulse can be high on two
consecutive cycles. -/
theorem ps2_edge_pulse_spec (R : Nat) (s : State) (i j : Input) :
    ((step R s i).sample = (s.clock_r && !s.clock_s)) ∧
    ((step R s i).setup = (!s.clock_r && s.clock_s)) ∧
    (((step R s i).sample && (step R (step R s i) j).sample) = false) ∧
    (((step R s i).setup && (step R (step R s i) j).setup) = false) := by
  refine ⟨rfl, rfl, ?_, ?_⟩ <;>
    · simp only [step]
      cases s.clock_s <;> cases s.clock_r <;> simp

/-- **C10.** In every reachable state, the `sample` and `setup` pulses
are never asserted together. -/
theorem ps2_sample_setup_exclusive (R : Nat) (s : State)
    (h : Reachable R s) : (s.sample && s.setup) = false := by
  induction h with
  | init => rfl
  | step s i _ _ =>
      show ((s.clock_r && !s.clock_s) && (!s.clock_r && s.clock_s)) = false
      cases s.clock_r <;> simp

/-- Witness for `ps2_sample_setup_exclusive` at the reset state. -/
theorem ps2_sample_setup_exclusive_witness :
    (resetState.sample && resetState.setup) = false :=
  ps2_sample_setup_exclusive 1 resetState Reachable.init

/-- **C1.** Mutual exclusion of the two FSMs: in every reachable state at
most one of them is outside `IDLE`. -/
theorem ps2_fsm_mutual_exclusion (R : Nat) (s : State)
    (h : Reachable R s) :
    s.rx = RxState.IDLE ∨ s.tx = TxState.IDLE := by
  induction h with
  | init => exact Or.inl rfl
  | step s i _ ih =>
      show rxNext s i = RxState.IDLE ∨ txNext s i = TxState.IDLE
      cases hrx : s.rx <;> cases htx : s.tx <;>
        simp_all [rxNext, txNext] <;>
        cases hc : i.clock_i <;> simp_all

/-- Witness for `ps2_fsm_mutual_exclusion` at the reset state. -/
theorem ps2_fsm_mutual_exclusion_witness :
    resetState.rx = RxState.IDLE ∨ resetState.tx = TxState.IDLE :=
  ps2_fsm_mutual_exclusion 1 resetState Reachable.init

/-- **C2 counterexample.** In `FRAME` with a valid frame and a full
inbound FIFO, the receive FSM does **not** transition to `IDLE-WAIT` on
that step, contradicting the claim. -/
theorem ps2_rx_queue_full_counterexample :
    check_frame fullFrameState.rx_frame = true ∧
    fullInput.inWritable = false ∧
    (step 1 fullFrameState fullInput).rx ≠ RxState.IDLE_WAIT := by
  decide

/-- **C2 (amended).** In `FRAME`, when the frame checks but the inbound
FIFO has no space, the byte is not enqueued on that step and the FSM
stays in `FRAME` with the frame held, retrying until the FIFO has space
(only the valid-and-space and invalid cases go to `IDLE-WAIT`). -/
theorem ps2_rx_queue_full_no_drop (R : Nat) (s : State) (i : Input)
    (hrx : s.rx = RxState.FRAME) (hc : check_frame s.rx_frame = true)
    (hw : i.inWritable = false) :
    in_we s i = false ∧ (step R s i).rx = RxState.FRAME ∧
    (step R s i).rx_frame = s.rx_frame := by
  refine ⟨?_, ?_, ?_⟩
  · simp [in_we, hw]
  · show rxNext s i = RxState.FRAME
    simp [rxNext, hrx, hc, hw]
  · show rxFrameNext s i = s.rx_frame
    simp [rxFrameNext, hrx]

/-- Witness for `ps2_rx_queue_full_no_drop` on a valid frame with the
FIFO full. -/
theorem ps2_rx_queue_full_no_drop_witness :
    in_we fullFrameState fullInput = false ∧
    (step 1 fullFrameState fullInput).rx = RxState.FRAME := by
  have h := ps2_rx_queue_full_no_drop 1 fullFrameState fullInput rfl
    (by decide) rfl
  exact ⟨h.1, h.2.1⟩

/-- **C5.** In `ACK` on a `sample` pulse, `out_fifo.re` (the dequeue
commit) is asserted exactly when the data line reads low, and the FSM
moves to `IDLE-WAIT` either way (no retry path). -/
theorem ps2_tx_ack_commit (R : Nat) (s : State) (i : Input)
    (htx : s.tx = TxState.ACK) (hs : s.sample = true) :
    out_re s i = !i.data_i ∧ (step R s i).tx = TxState.IDLE_WAIT := by
  refine ⟨?_, ?_⟩
  · simp [out_re, htx, hs]
  · show txNext s i = TxState.IDLE_WAIT
    simp [txNext, htx, hs]

/-- Witness for `ps2_tx_ack_commit` with the peripheral acknowledging. -/
theorem ps2_tx_ack_commit_witness :
    out_re ackState ackInput = true ∧
    (step 1 ackState ackInput).tx = TxState.IDLE_WAIT := by
  have h := ps2_tx_ack_commit 1 ackState ackInput rfl rfl
  exact ⟨h.1, h.2⟩

/-- The two bit counters stay in their design range 0..10 in every
reachable state. -/
lemma bitno_in_range (R : Nat) (s : State) (h : Reachable R s) :
    s.rx_bitno ≤ 10 ∧ s.tx_bitno ≤ 10 := by
  induction h with
  | init => exact ⟨by decide, by decide⟩
  | step s i _ ih =>
      obtain ⟨ih1, ih2⟩ := ih
      constructor
      · show rxBitnoNext s ≤ 10
        unfold rxBitnoNext
        cases s.rx <;> simp <;>
          first
          | omega
          | (split_ifs <;> simp_all <;> omega)
      · show txBitnoNext s ≤ 10
        unfold txBitnoNext
        cases s.tx <;> simp <;>
          first
          | omega
          | (split_ifs <;> simp_all <;> omega)

/-- **C6.** In `BIT`, each `sample` pulse shifts the incoming data bit
into the frame at the high end (bit 10) and increments the counter; on
the pulse where the counter reads 10 the counter resets and the FSM
moves to `FRAME`; without a `sample` pulse nothing changes, so exactly
11 pulses are consumed per frame. -/
theorem ps2_rx_bit_shift (R : Nat) (s : State) (i : Input)
    (h : Reachable R s) (hrx : s.rx = RxState.BIT) :
    (s.sample = true →
       (step R s i).rx_frame = rxShiftIn s.rx_frame i.data_i ∧
       rxShiftIn s.rx_frame i.data_i / 1024 = (if i.data_i then 1 else 0) ∧
       (s.rx_bitno = 10 →
          (step R s i).rx_bitno = 0 ∧ (step R s i).rx = RxState.FRAME) ∧
       (s.rx_bitno ≠ 10 →
          (step R s i).rx_bitno = s.rx_bitno + 1 ∧
          (step R s i).rx = RxState.BIT)) ∧
    (s.sample = false →
       (step R s i).rx = RxState.BIT ∧
       (step R s i).rx_frame = s.rx_frame ∧
       (step R s i).rx_bitno = s.rx_bitno) := by
  have hb := (bitno_in_range R s h).1
  constructor
  · intro hs
    refine ⟨?_, ?_, ?_, ?_⟩
    · show rxFrameNext s i = rxShiftIn s.rx_frame i.data_i
      simp [rxFrameNext, hrx, hs]
    · unfold rxShiftIn
      cases i.data_i <;> simp <;> omega
    · intro h10
      constructor
      · show rxBitnoNext s = 0
        simp [rxBitnoNext, hrx, hs, h10]
      · show rxNext s i = RxState.FRAME
        simp [rxNext, hrx, hs, h10]
    · intro h10
      constructor
      · show rxBitnoNext s = s.rx_bitno + 1
        simp [rxBitnoNext, hrx, hs, h10]
        omega
      · show rxNext s i = RxState.BIT
        simp [rxNext, hrx, hs, h10]
  · intro hs
    refine ⟨?_, ?_, ?_⟩
    · show rxNext s i = RxState.BIT
      simp [rxNext, hrx, hs]
    · show rxFrameNext s i = s.rx_frame
      simp [rxFrameNext, hrx, hs]
    · show rxBitnoNext s = s.rx_bitno
      simp [rxBitnoNext, hrx, hs]

/-- Witness for `ps2_rx_bit_shift`: two cycles after reset with the
clock held low the FSM is in `BIT` with a pending `sample` pulse, and
the step shifts the high data bit in and counts to 1. -/
theorem ps2_rx_bit_shift_witness :
    (step 3 rxBitState rxStartInput).rx = RxState.BIT ∧
    (step 3 rxBitState rxStartInput).rx_bitno = 1 ∧
    (step 3 rxBitState rxStartInput).rx_frame = 1024 := by
  have h := ps2_rx_bit_shift 3 rxBitState rxStartInput
    (Reachable.step _ _ (Reachable.step _ _ Reachable.init)) (by decide)
  have h1 := h.1 (by decide)
  have h2 := h1.2.2.2 (by decide)
  exact ⟨h2.2, h2.1, by decide⟩

/-- Peeling the first cycle off an iterated run. -/
lemma iterStep_shift (R : Nat) (s : State) (f : Nat → Input) :
    ∀ n, iterStep R s f (n + 1) =
      iterStep R (step R s (f 0)) (fun m => f (m + 1)) n := by
  intro n
  induction n with
  | zero => rfl
  | succ n ih =>
      show step R (iterStep R s f (n + 1)) (f (n + 1)) = _
      rw [ih]
      rfl

/-- While the hold timer has not expired, the transmit FSM sits in
`REQUEST` counting down, with the clock line held low and the data line
released, regardless of the inputs. -/
lemma request_countdown (R : Nat) (u : State) (g : Nat → Input)
    (htx : u.tx = TxState.REQUEST) (hc : u.clock_o = false)
    (hd : u.data_o = true) :
    ∀ j, j ≤ u.tx_timer →
      (iterStep R u g j).tx = TxState.REQUEST ∧
      (iterStep R u g j).tx_timer = u.tx_timer - j ∧
      (iterStep R u g j).clock_o = false ∧
      (iterStep R u g j).data_o = true := by
  intro j
  induction j with
  | zero => intro _; exact ⟨htx, by simp [iterStep], hc, hd⟩
  | succ n ih =>
      intro hle
      obtain ⟨h1, h2, h3, h4⟩ := ih (Nat.le_of_succ_le hle)
      have hne : (iterStep R u g n).tx_timer ≠ 0 := by omega
      refine ⟨?_, ?_, ?_, ?_⟩
      · show txNext (iterStep R u g n) (g n) = TxState.REQUEST
        simp [txNext, h1, hne]
      · show txTimerNext R (iterStep R u g n) (g n) = u.tx_timer - (n + 1)
        simp [txTimerNext, h1]
        omega
      · show clockONext (iterStep R u g n) (g n) = false
        simp [clockONext, h1, hne, h3]
      · show dataONext (iterStep R u g n) = true
        simp [dataONext, h1, hne, h4]

/-- **C3.** Request-to-send timing: with both FSMs idle, both lines
released and a byte pending, `clock_o` goes low on cycle 1 and stays low
with `data_o` still released through cycle `R`, and on cycle `R + 1` the
clock line is released and the data line pulled low — so the interval
between `clock_o` first going low and `data_o` going low is exactly `R`
cycles, for every configured hold count `R ≥ 1`. -/
theorem ps2_request_to_send_timing (R : Nat) (s : State)
    (f : Nat → Input) (hR : 1 ≤ R)
    (hrx : s.rx = RxState.IDLE) (htx : s.tx = TxState.IDLE)
    (hco : s.clock_o = true) (hdo : s.data_o = true)
    (hck : (f 0).clock_i = true) (hrd : (f 0).outReadable = true) :
    (∀ k, 1 ≤ k → k ≤ R →
       (iterStep R s f k).clock_o = false ∧
       (iterStep R s f k).data_o = true) ∧
    (iterStep R s f (R + 1)).clock_o = true ∧
    (iterStep R s f (R + 1)).data_o = false := by
  have harm : s.rx = RxState.IDLE ∧ (f 0).clock_i = true ∧
      (f 0).outReadable = true := ⟨hrx, hck, hrd⟩
  have h1tx : (step R s (f 0)).tx = TxState.REQUEST := by
    show txNext s (f 0) = TxState.REQUEST
    simp [txNext, htx, harm]
  have h1tm : (step R s (f 0)).tx_timer = R - 1 := by
    show txTimerNext R s (f 0) = R - 1
    simp [txTimerNext, htx, harm]
  have h1c : (step R s (f 0)).clock_o = false := by
    show clockONext s (f 0) = false
    simp [clockONext, htx, harm]
  have h1d : (step R s (f 0)).data_o = true := by
    show dataONext s = true
    simp [dataONext, htx, hdo]
  have hcount := request_countdown R (step R s (f 0))
    (fun m => f (m + 1)) h1tx h1c h1d
  constructor
  · intro k hk1 hkR
    obtain ⟨j, rfl⟩ : ∃ j, k = j + 1 := ⟨k - 1, by omega⟩
    rw [iterStep_shift]
    have := hcount j (by omega)
    exact ⟨this.2.2.1, this.2.2.2⟩
  · obtain ⟨j, hj⟩ : ∃ j, R = j + 1 := ⟨R - 1, by omega⟩
    have hv := hcount j (by omega)
    have hv0 : (iterStep R (step R s (f 0)) (fun m => f (m + 1))
        j).tx_timer = 0 := by omega
    rw [show R + 1 = (j + 1) + 1 by omega, iterStep_shift]
    constructor
    · show clockONext (iterStep R (step R s (f 0))
          (fun m => f (m + 1)) j) _ = true
      simp [clockONext, hv.1, hv0]
    · show dataONext (iterStep R (step R s (f 0))
          (fun m => f (m + 1)) j) = false
      simp [dataONext, hv.1, hv0]

/-- Witness for `ps2_request_to_send_timing` with a hold count of 2
starting from reset: the clock is low on cycle 1 and the data line goes
low on cycle 3 with the clock released. -/
theorem ps2_request_to_send_timing_witness :
    (iterStep 2 resetState txStartInput 1).clock_o = false ∧
    (iterStep 2 resetState txStartInput 2).clock_o = false ∧
    (iterStep 2 resetState txStartInput 3).clock_o = true ∧
    (iterStep 2 resetState txStartInput 3).data_o = false := by
  have h := ps2_request_to_send_timing 2 resetState txStartInput
    (by decide) rfl rfl rfl rfl rfl rfl
  exact ⟨(h.1 1 (by decide) (by decide)).1, (h.1 2 (by decide) (by decide)).1,
    h.2.1, h.2.2⟩

end PS2Host
